import Mathlib

/-!
Verification of the `aq` air-quality monitor core.

Two components are embedded from the source, over exact rationals:

* `src/aqi.rs` — the EPA PM2.5 breakpoint table, row lookup and linear
  interpolation.  The Rust code aborts (`Option::unwrap`) when no row
  matches; that fallible path is embedded as `Option`, with `none`
  standing for the abort / "no matching breakpoint" outcome.
* `src/main.rs` — `App`: the 21-point sliding-window series buffer with
  its `[lower, upper]` window bounds, advanced once per tick by
  `App::update` (compute AQI from the measurement, then push).
-/

/-- A row of the lookup table: `(concentration_low, concentration_high,
index_low, index_high, label)`, from `type AirQualityRow` in `src/aqi.rs`. -/
abbrev AirQualityRow : Type := ℚ × ℚ × ℤ × ℤ × String

/-- The `PM2_5_LOOKUP_TABLE` of `src/aqi.rs`: concentration low/high,
index low/high and label per EPA guidance for PM2.5 pollution. -/
def PM2_5_LOOKUP_TABLE : List AirQualityRow :=
  [ (0.0,   12.0,  0,   50,  "good"),
    (12.1,  35.4,  51,  100, "moderate"),
    (35.5,  55.4,  101, 150, "unhealthy for sensitive groups"),
    (55.5,  150.4, 151, 200, "unhealthy"),
    (150.5, 250.4, 201, 300, "very unhealthy"),
    (250.5, 350.4, 301, 400, "hazardous"),
    (350.5, 500.4, 401, 500, "hazardous") ]

/-- The row-scanning loop of `find_lookup_values` in `src/aqi.rs`: walk
the table in order and return the first row whose closed
`[concentration_low, concentration_high]` interval contains the
concentration (the loop `break`s at the first hit). -/
def find_in_table : List AirQualityRow → ℚ → Option AirQualityRow
  | [], _ => none
  | r :: rest, concentration =>
    if concentration ≥ r.1 ∧ concentration ≤ r.2.1 then some r
    else find_in_table rest concentration

/-- `find_lookup_values` of `src/aqi.rs`.  Above `500.4` the last row is
returned (`last().unwrap()`); otherwise the first row whose closed
interval contains the concentration.  The `row.unwrap()` abort on a
missing row is embedded as `none`. -/
def find_lookup_values (concentration : ℚ) : Option AirQualityRow :=
  if concentration > 500.4 then
    PM2_5_LOOKUP_TABLE.getLast?
  else
    find_in_table PM2_5_LOOKUP_TABLE concentration

/-- `aqi` of `src/aqi.rs`: exact linear interpolation
`(i_high − i_low) / (c_high − c_low) × (concentration − c_low) + i_low`. -/
def aqi (lookup_values : AirQualityRow) (concentration : ℚ) : ℚ :=
  let (c_low, c_high, i_low, i_high, _) := lookup_values
  ((i_high - i_low : ℤ) : ℚ) / (c_high - c_low)
    * (concentration - c_low)
    + (i_low : ℚ)

/-- `aqi_from_pm2_5` of `src/aqi.rs`: row lookup followed by
interpolation; `none` when the lookup aborts. -/
def aqi_from_pm2_5 (concentration : ℚ) : Option ℚ :=
  (find_lookup_values concentration).map fun lookup_values =>
    aqi lookup_values concentration

/-- The display state of `struct App` in `src/main.rs`: the point buffer
`pm_2_5_data` and the x-axis `window` bounds.  The external `sensor`
field is omitted (measurements enter as explicit arguments). -/
structure App where
  pm_2_5_data : List (ℚ × ℚ)
  window : ℚ × ℚ
deriving DecidableEq

/-- `App::new` of `src/main.rs`: empty buffer, window `[0.0, 20.0]`. -/
def App.new : App :=
  { pm_2_5_data := [], window := (0.0, 20.0) }

/-- The buffer/bounds mutation of `App::update` in `src/main.rs`, given
the already-computed AQI value: when more than 20 points are stored,
remove the oldest, advance both bounds by 1 and append at the new upper
bound; otherwise append at x = current point count. -/
def App.push (app : App) (value : ℚ) : App :=
  if app.pm_2_5_data.length > 20 then
    { pm_2_5_data :=
        app.pm_2_5_data.drop 1 ++ [(app.window.2 + 1.0, value)],
      window := (app.window.1 + 1.0, app.window.2 + 1.0) }
  else
    { pm_2_5_data :=
        app.pm_2_5_data ++ [((app.pm_2_5_data.length : ℚ), value)],
      window := app.window }

/-- `App::update` of `src/main.rs`, with the sensor measurement's
`pm2_5` field passed in: compute the AQI, then push it.  `none` when
`aqi_from_pm2_5` hits the no-matching-breakpoint abort. -/
def App.update (app : App) (pm2_5 : ℚ) : Option App :=
  (aqi_from_pm2_5 pm2_5).map app.push

/-- A run of the series buffer alone: push the given values in order
into a fresh `App`. -/
def runPushes (ys : List ℚ) : App :=
  ys.foldl App.push App.new

/-- A run of the full pipeline: feed the given concentration
measurements, one per tick, through `App.update` from a fresh `App`. -/
def runTicks (cs : List ℚ) : Option App :=
  cs.foldlM App.update App.new

/-! ### Helper lemmas for the row lookup -/

lemma find_in_table_cons (r : AirQualityRow) (rest : List AirQualityRow)
    (c : ℚ) :
    find_in_table (r :: rest) c =
      if c ≥ r.1 ∧ c ≤ r.2.1 then some r else find_in_table rest c := rfl

lemma find_in_table_isSome (l : List AirQualityRow) (c : ℚ) :
    (find_in_table l c).isSome ↔ ∃ r ∈ l, c ≥ r.1 ∧ c ≤ r.2.1 := by
  induction l with
  | nil => simp [find_in_table]
  | cons r rest ih =>
    rw [find_in_table_cons]
    by_cases h : c ≥ r.1 ∧ c ≤ r.2.1
    · simp [h]
    · simp only [if_neg h, ih, List.mem_cons]
      constructor
      · rintro ⟨s, hs, hp⟩
        exact ⟨s, Or.inr hs, hp⟩
      · rintro ⟨s, rfl | hs, hp⟩
        · exact absurd hp h
        · exact ⟨s, hs, hp⟩

lemma find_in_table_eq_none (l : List AirQualityRow) (c : ℚ)
    (h : ∀ r ∈ l, ¬(c ≥ r.1 ∧ c ≤ r.2.1)) : find_in_table l c = none := by
  induction l with
  | nil => rfl
  | cons r rest ih =>
    rw [find_in_table_cons, if_neg (h r (List.mem_cons_self r rest))]
    exact ih fun s hs => h s (List.mem_cons_of_mem r hs)

lemma find_lookup_above (c : ℚ) (h : 500.4 < c) :
    find_lookup_values c = some (350.5, 500.4, 401, 500, "hazardous") := by
  rw [find_lookup_values, if_pos h]
  rfl

lemma find_lookup_row0 (c : ℚ) (h1 : (0.0 : ℚ) ≤ c) (h2 : c ≤ 12.0) :
    find_lookup_values c = some (0.0, 12.0, 0, 50, "good") := by
  rw [find_lookup_values, if_neg (by push_neg; linarith), PM2_5_LOOKUP_TABLE,
    find_in_table_cons, if_pos ⟨h1, h2⟩]

lemma find_lookup_row1 (c : ℚ) (h1 : (12.1 : ℚ) ≤ c) (h2 : c ≤ 35.4) :
    find_lookup_values c = some (12.1, 35.4, 51, 100, "moderate") := by
  rw [find_lookup_values, if_neg (by push_neg; linarith), PM2_5_LOOKUP_TABLE,
    find_in_table_cons, if_neg (by rintro ⟨-, h⟩; norm_num at h; linarith),
    find_in_table_cons, if_pos ⟨h1, h2⟩]

lemma find_lookup_row2 (c : ℚ) (h1 : (35.5 : ℚ) ≤ c) (h2 : c ≤ 55.4) :
    find_lookup_values c =
      some (35.5, 55.4, 101, 150, "unhealthy for sensitive groups") := by
  rw [find_lookup_values, if_neg (by push_neg; linarith), PM2_5_LOOKUP_TABLE,
    find_in_table_cons, if_neg (by rintro ⟨-, h⟩; norm_num at h; linarith),
    find_in_table_cons, if_neg (by rintro ⟨-, h⟩; norm_num at h; linarith),
    find_in_table_cons, if_pos ⟨h1, h2⟩]

lemma find_lookup_row3 (c : ℚ) (h1 : (55.5 : ℚ) ≤ c) (h2 : c ≤ 150.4) :
    find_lookup_values c = some (55.5, 150.4, 151, 200, "unhealthy") := by
  rw [find_lookup_values, if_neg (by push_neg; linarith), PM2_5_LOOKUP_TABLE,
    find_in_table_cons, if_neg (by rintro ⟨-, h⟩; norm_num at h; linarith),
    find_in_table_cons, if_neg (by rintro ⟨-, h⟩; norm_num at h; linarith),
    find_in_table_cons, if_neg (by rintro ⟨-, h⟩; norm_num at h; linarith),
    find_in_table_cons, if_pos ⟨h1, h2⟩]

lemma find_lookup_row4 (c : ℚ) (h1 : (150.5 : ℚ) ≤ c) (h2 : c ≤ 250.4) :
    find_lookup_values c = some (150.5, 250.4, 201, 300, "very unhealthy") := by
  rw [find_lookup_values, if_neg (by push_neg; linarith), PM2_5_LOOKUP_TABLE,
    find_in_table_cons, if_neg (by rintro ⟨-, h⟩; norm_num at h; linarith),
    find_in_table_cons, if_neg (by rintro ⟨-, h⟩; norm_num at h; linarith),
    find_in_table_cons, if_neg (by rintro ⟨-, h⟩; norm_num at h; linarith),
    find_in_table_cons, if_neg (by rintro ⟨-, h⟩; norm_num at h; linarith),
    find_in_table_cons, if_pos ⟨h1, h2⟩]

lemma find_lookup_row5 (c : ℚ) (h1 : (250.5 : ℚ) ≤ c) (h2 : c ≤ 350.4) :
    find_lookup_values c = some (250.5, 350.4, 301, 400, "hazardous") := by
  rw [find_lookup_values, if_neg (by push_neg; linarith), PM2_5_LOOKUP_TABLE,
    find_in_table_cons, if_neg (by rintro ⟨-, h⟩; norm_num at h; linarith),
    find_in_table_cons, if_neg (by rintro ⟨-, h⟩; norm_num at h; linarith),
    find_in_table_cons, if_neg (by rintro ⟨-, h⟩; norm_num at h; linarith),
    find_in_table_cons, if_neg (by rintro ⟨-, h⟩; norm_num at h; linarith),
    find_in_table_cons, if_neg (by rintro ⟨-, h⟩; norm_num at h; linarith),
    find_in_table_cons, if_pos ⟨h1, h2⟩]

lemma find_lookup_row6 (c : ℚ) (h1 : (350.5 : ℚ) ≤ c) (h2 : c ≤ 500.4) :
    find_lookup_values c = some (350.5, 500.4, 401, 500, "hazardous") := by
  rw [find_lookup_values, if_neg (by push_neg; linarith), PM2_5_LOOKUP_TABLE,
    find_in_table_cons, if_neg (by rintro ⟨-, h⟩; norm_num at h; linarith),
    find_in_table_cons, if_neg (by rintro ⟨-, h⟩; norm_num at h; linarith),
    find_in_table_cons, if_neg (by rintro ⟨-, h⟩; norm_num at h; linarith),
    find_in_table_cons, if_neg (by rintro ⟨-, h⟩; norm_num at h; linarith),
    find_in_table_cons, if_neg (by rintro ⟨-, h⟩; norm_num at h; linarith),
    find_in_table_cons, if_neg (by rintro ⟨-, h⟩; norm_num at h; linarith),
    find_in_table_cons, if_pos ⟨h1, h2⟩]

/-! ### Claims about the index calculator -/

/-- C1: for every concentration matched by some breakpoint row
(`concentration_low ≤ concentration ≤ concentration_high`), the
calculator returns exactly
`(i_high − i_low) / (c_high − c_low) × (concentration − c_low) + i_low`
for that row's values, with no rounding applied. -/
theorem interp_matched_row (c c_low c_high : ℚ) (i_low i_high : ℤ)
    (label : String)
    (hmem : (c_low, c_high, i_low, i_high, label) ∈ PM2_5_LOOKUP_TABLE)
    (hlo : c_low ≤ c) (hhi : c ≤ c_high) :
    aqi_from_pm2_5 c =
      some (((i_high - i_low : ℤ) : ℚ) / (c_high - c_low) * (c - c_low)
        + (i_low : ℚ)) := by
  simp only [PM2_5_LOOKUP_TABLE, List.mem_cons, List.not_mem_nil, or_false,
    Prod.mk.injEq] at hmem
  rcases hmem with ⟨rfl, rfl, rfl, rfl, rfl⟩ | ⟨rfl, rfl, rfl, rfl, rfl⟩ |
    ⟨rfl, rfl, rfl, rfl, rfl⟩ | ⟨rfl, rfl, rfl, rfl, rfl⟩ |
    ⟨rfl, rfl, rfl, rfl, rfl⟩ | ⟨rfl, rfl, rfl, rfl, rfl⟩ |
    ⟨rfl, rfl, rfl, rfl, rfl⟩
  · rw [aqi_from_pm2_5, find_lookup_row0 c hlo hhi, Option.map_some']
    norm_num [aqi]
  · rw [aqi_from_pm2_5, find_lookup_row1 c hlo hhi, Option.map_some']
    norm_num [aqi]
  · rw [aqi_from_pm2_5, find_lookup_row2 c hlo hhi, Option.map_some']
    norm_num [aqi]
  · rw [aqi_from_pm2_5, find_lookup_row3 c hlo hhi, Option.map_some']
    norm_num [aqi]
  · rw [aqi_from_pm2_5, find_lookup_row4 c hlo hhi, Option.map_some']
    norm_num [aqi]
  · rw [aqi_from_pm2_5, find_lookup_row5 c hlo hhi, Option.map_some']
    norm_num [aqi]
  · rw [aqi_from_pm2_5, find_lookup_row6 c hlo hhi, Option.map_some']
    norm_num [aqi]

/-- Witness for C1 at concentration 20 in row 1 (12.1–35.4). -/
theorem interp_matched_row_check :
    aqi_from_pm2_5 20 =
      some ((((100 : ℤ) - 51 : ℤ) : ℚ) / ((35.4 : ℚ) - 12.1)
        * ((20 : ℚ) - 12.1) + ((51 : ℤ) : ℚ)) :=
  interp_matched_row 20 12.1 35.4 51 100 "moderate"
    (by norm_num [PM2_5_LOOKUP_TABLE]) (by norm_num) (by norm_num)

/-- C3: above the table's global maximum 500.4 the last row is selected
and the interpolation extrapolates linearly past its `index_high`: the
result exceeds 500 rather than being capped. -/
theorem interp_above_table_extrapolates (c : ℚ) (h : 500.4 < c) :
    aqi_from_pm2_5 c = some (aqi (350.5, 500.4, 401, 500, "hazardous") c) ∧
    500 < aqi (350.5, 500.4, 401, 500, "hazardous") c := by
  constructor
  · rw [aqi_from_pm2_5, find_lookup_above c h, Option.map_some']
  · rw [aqi]
    norm_num
    linarith

/-- Witness for C3 at concentration 600: the result strictly exceeds
500. -/
theorem interp_above_table_extrapolates_check :
    aqi_from_pm2_5 600 =
      some (aqi (350.5, 500.4, 401, 500, "hazardous") 600) ∧
    500 < aqi (350.5, 500.4, 401, 500, "hazardous") 600 :=
  interp_above_table_extrapolates 600 (by norm_num)

/-- C4: a concentration strictly inside the gap between two adjacent
breakpoint rows is matched by no row: the lookup and hence the
calculator yield the explicit no-matching-breakpoint outcome (`none`,
the embedded `unwrap` abort), not an interpolated value. -/
theorem gap_no_matching_breakpoint (i : ℕ)
    (h : i + 1 < PM2_5_LOOKUP_TABLE.length) (c : ℚ)
    (hhi : (PM2_5_LOOKUP_TABLE.get ⟨i, by omega⟩).2.1 < c)
    (hlo : c < (PM2_5_LOOKUP_TABLE.get ⟨i + 1, h⟩).1) :
    find_lookup_values c = none ∧ aqi_from_pm2_5 c = none := by
  have h6 : i < 6 := by
    simp only [PM2_5_LOOKUP_TABLE, List.length_cons, List.length_nil] at h
    omega
  have hfind : find_lookup_values c = none := by
    interval_cases i <;>
      norm_num [PM2_5_LOOKUP_TABLE, List.get] at hhi hlo <;>
      · rw [find_lookup_values, if_neg (by push_neg; linarith)]
        refine find_in_table_eq_none _ _ fun r hr => ?_
        simp only [PM2_5_LOOKUP_TABLE, List.mem_cons, List.not_mem_nil,
          or_false] at hr
        rcases hr with rfl | rfl | rfl | rfl | rfl | rfl | rfl <;>
          rintro ⟨ha, hb⟩ <;> norm_num at ha hb <;> linarith
  exact ⟨hfind, by rw [aqi_from_pm2_5, hfind, Option.map_none']⟩

/-- Witness for C4 at concentration 12.05, strictly between row 0's
high 12.0 and row 1's low 12.1. -/
theorem gap_no_matching_breakpoint_check :
    find_lookup_values 12.05 = none ∧ aqi_from_pm2_5 12.05 = none :=
  gap_no_matching_breakpoint 0 (by norm_num [PM2_5_LOOKUP_TABLE]) 12.05
    (by norm_num [PM2_5_LOOKUP_TABLE, List.get])
    (by norm_num [PM2_5_LOOKUP_TABLE, List.get])

/-- C7: for every row of the PM2.5 table the calculator is exact at both
endpoints: `concentration_low` maps to `index_low` and
`concentration_high` maps to `index_high`. -/
theorem compute_endpoints_exact (c_low c_high : ℚ) (i_low i_high : ℤ)
    (label : String)
    (hmem : (c_low, c_high, i_low, i_high, label) ∈ PM2_5_LOOKUP_TABLE) :
    aqi_from_pm2_5 c_low = some (i_low : ℚ) ∧
    aqi_from_pm2_5 c_high = some (i_high : ℚ) := by
  simp only [PM2_5_LOOKUP_TABLE, List.mem_cons, List.not_mem_nil, or_false,
    Prod.mk.injEq] at hmem
  rcases hmem with ⟨rfl, rfl, rfl, rfl, rfl⟩ | ⟨rfl, rfl, rfl, rfl, rfl⟩ |
    ⟨rfl, rfl, rfl, rfl, rfl⟩ | ⟨rfl, rfl, rfl, rfl, rfl⟩ |
    ⟨rfl, rfl, rfl, rfl, rfl⟩ | ⟨rfl, rfl, rfl, rfl, rfl⟩ |
    ⟨rfl, rfl, rfl, rfl, rfl⟩ <;>
  constructor <;>
  norm_num [aqi_from_pm2_5, find_lookup_values, find_in_table,
    PM2_5_LOOKUP_TABLE, aqi]

/-- Witness for C7 at rows 0 and 1: `compute(0.0) = 0`,
`compute(12.0) = 50` and `compute(12.1) = 51`. -/
theorem compute_endpoints_exact_check :
    aqi_from_pm2_5 0.0 = some ((0 : ℤ) : ℚ) ∧
    aqi_from_pm2_5 12.0 = some ((50 : ℤ) : ℚ) ∧
    aqi_from_pm2_5 12.1 = some ((51 : ℤ) : ℚ) :=
  ⟨(compute_endpoints_exact 0.0 12.0 0 50 "good"
      (List.mem_cons_self _ _)).1,
   (compute_endpoints_exact 0.0 12.0 0 50 "good"
      (List.mem_cons_self _ _)).2,
   (compute_endpoints_exact 12.1 35.4 51 100 "moderate"
      (List.mem_cons_of_mem _ (List.mem_cons_self _ _))).1⟩

/-- C9: the row lookup succeeds exactly when the concentration exceeds
500.4 or lies in some row's closed interval; in particular every
negative concentration reaches the unwrap-on-absent-value abort
(`none`) — negative inputs are not clamped to the first row and produce
no index value. -/
theorem lookup_succeeds_iff (c : ℚ) :
    ((find_lookup_values c).isSome ↔
      500.4 < c ∨ ∃ r ∈ PM2_5_LOOKUP_TABLE, r.1 ≤ c ∧ c ≤ r.2.1) ∧
    (c < 0 → aqi_from_pm2_5 c = none) := by
  constructor
  · by_cases hc : c > 500.4
    · rw [find_lookup_values, if_pos hc]
      simp [PM2_5_LOOKUP_TABLE, hc]
    · rw [find_lookup_values, if_neg hc, find_in_table_isSome]
      simp only [ge_iff_le]
      exact (or_iff_right hc).symm
  · intro hneg
    have hfind : find_lookup_values c = none := by
      rw [find_lookup_values, if_neg (by push_neg; linarith)]
      refine find_in_table_eq_none _ _ fun r hr => ?_
      simp only [PM2_5_LOOKUP_TABLE, List.mem_cons, List.not_mem_nil,
        or_false] at hr
      rcases hr with rfl | rfl | rfl | rfl | rfl | rfl | rfl <;>
        rintro ⟨ha, hb⟩ <;> norm_num at ha hb <;> linarith
    rw [aqi_from_pm2_5, hfind, Option.map_none']

/-- Witness for C9 at concentration −1. -/
theorem lookup_succeeds_iff_check : aqi_from_pm2_5 (-1) = none :=
  (lookup_succeeds_iff (-1)).2 (by norm_num)

/-! ### Helper lemmas for the windowed series -/

lemma App.push_full {app : App} (h : app.pm_2_5_data.length > 20)
    (value : ℚ) :
    app.push value =
      { pm_2_5_data :=
          app.pm_2_5_data.drop 1 ++ [(app.window.2 + 1.0, value)],
        window := (app.window.1 + 1.0, app.window.2 + 1.0) } := by
  rw [App.push, if_pos h]

lemma App.push_fill {app : App} (h : ¬ app.pm_2_5_data.length > 20)
    (value : ℚ) :
    app.push value =
      { pm_2_5_data :=
          app.pm_2_5_data ++ [((app.pm_2_5_data.length : ℚ), value)],
        window := app.window } := by
  rw [App.push, if_neg h]

lemma range'_21_cons (s : ℕ) :
    List.range' s 21 = s :: List.range' (s + 1) 20 := by
  rw [show (21 : ℕ) = 20 + 1 from by norm_num, List.range'_succ]

lemma range'_21_concat (s : ℕ) :
    List.range' s 21 = List.range' s 20 ++ [s + 20] := by
  rw [show (21 : ℕ) = 20 + 1 from by norm_num, List.range'_1_concat s 20]

/-- The state of `runPushes` after `n` pushes: with `k = n - 21`
(truncated), the window is `[k, k + 20]` and the buffer pairs the
x-coordinates `k, k+1, …` with the last `min n 21` pushed values. -/
lemma runPushes_spec (ys : List ℚ) :
    (runPushes ys).window =
      (((ys.length - 21 : ℕ) : ℚ), ((ys.length - 21 : ℕ) : ℚ) + 20) ∧
    (runPushes ys).pm_2_5_data =
      List.zip ((List.range' (ys.length - 21) (min ys.length 21)).map
        (Nat.cast : ℕ → ℚ)) (ys.drop (ys.length - 21)) := by
  induction ys using List.reverseRecOn with
  | nil =>
    constructor
    · norm_num [runPushes, App.new]
    · simp [runPushes, App.new]
  | append_singleton ys y ih =>
    obtain ⟨ihw, ihd⟩ := ih
    have hrun : runPushes (ys ++ [y]) = (runPushes ys).push y := by
      simp [runPushes, List.foldl_append]
    have hlen : (runPushes ys).pm_2_5_data.length = min ys.length 21 := by
      rw [ihd]
      simp only [List.length_zip, List.length_map, List.length_range',
        List.length_drop]
      omega
    have hlapp : (ys ++ [y]).length = ys.length + 1 := by simp
    by_cases hcase : ys.length ≤ 20
    · -- filling phase: append at x = current length, window untouched
      have hmin : min ys.length 21 = ys.length := by omega
      have h0 : ys.length - 21 = 0 := by omega
      have h0' : ys.length + 1 - 21 = 0 := by omega
      have hmin' : min (ys.length + 1) 21 = ys.length + 1 := by omega
      have hnot : ¬ (runPushes ys).pm_2_5_data.length > 20 := by
        rw [hlen]; omega
      rw [hrun]
      simp only [App.push_fill hnot]
      constructor
      · rw [ihw, hlapp, h0, h0']
      · simp only [hlen, ihd, hlapp, h0, h0', hmin, hmin', List.drop_zero]
        rw [List.range'_1_concat 0 ys.length, List.map_append,
          List.zip_append (by simp)]
        simp
    · -- steady state: evict the oldest point, advance the window
      have hge : 21 ≤ ys.length := by omega
      have hmin : min ys.length 21 = 21 := by omega
      have hmin' : min (ys.length + 1) 21 = 21 := by omega
      have hk1 : ys.length + 1 - 21 = (ys.length - 21) + 1 := by omega
      have hnot : (runPushes ys).pm_2_5_data.length > 20 := by
        rw [hlen]; omega
      rw [hrun]
      simp only [App.push_full hnot]
      constructor
      · simp only [ihw, hlapp, hk1]
        rw [Prod.ext_iff]
        constructor <;> (push_cast; linarith)
      · simp only [ihd, ihw, hlapp, hk1, hmin, hmin']
        rw [List.drop_one, List.tail_zip, List.tail_drop,
          range'_21_cons (ys.length - 21), List.map_cons, List.tail_cons,
          range'_21_concat (ys.length - 21 + 1), List.map_append,
          List.drop_append_of_le_length (by omega),
          List.zip_append (by simp; omega)]
        simp only [List.map_cons, List.map_nil, List.zip_cons_cons,
          List.zip_nil_right]
        congr 1
        have hx : ((ys.length - 21 : ℕ) : ℚ) + 20 + 1.0 =
            ((ys.length - 21 + 1 + 20 : ℕ) : ℚ) := by push_cast; linarith
        rw [hx]

/-- Relating a successful `runTicks` run to a `runPushes` run: each tick
that succeeded contributed exactly its computed AQI value, in order. -/
lemma foldlM_update_eq_foldl_push (cs : List ℚ) : ∀ (a app : App),
    cs.foldlM App.update a = some app →
    ∃ ys : List ℚ, ys.map some = cs.map aqi_from_pm2_5 ∧
      app = ys.foldl App.push a := by
  induction cs with
  | nil =>
    intro a app h
    simp only [List.foldlM_nil, Option.pure_def, Option.some.injEq] at h
    exact ⟨[], by simp, by simp [h]⟩
  | cons c cs ih =>
    intro a app h
    rw [List.foldlM_cons] at h
    cases hc : aqi_from_pm2_5 c with
    | none =>
      rw [App.update, hc, Option.map_none'] at h
      simp at h
    | some v =>
      rw [App.update, hc, Option.map_some'] at h
      simp only [Option.bind_eq_bind, Option.some_bind] at h
      obtain ⟨ys, hys, happ⟩ := ih (a.push v) app h
      exact ⟨v :: ys, by simp [hys, hc], by simp [happ]⟩

lemma runTicks_eq_runPushes (cs : List ℚ) (app : App)
    (h : runTicks cs = some app) :
    ∃ ys : List ℚ, ys.map some = cs.map aqi_from_pm2_5 ∧
      app = runPushes ys :=
  foldlM_update_eq_foldl_push cs App.new app h

/-! ### Claims about the windowed series -/

/-- C5: pushing at most 21 values into a fresh series yields points
whose x-coordinates are exactly `0, 1, …, n−1` in insertion order (each
new point's x is the point count before insertion), and the window
bounds stay `[0, 20]` throughout the filling phase. -/
theorem series_fill_phase (ys : List ℚ) (h : ys.length ≤ 21) :
    (runPushes ys).pm_2_5_data.map Prod.fst =
      (List.range ys.length).map (Nat.cast : ℕ → ℚ) ∧
    (runPushes ys).window = (0, 20) := by
  obtain ⟨hw, hd⟩ := runPushes_spec ys
  have h0 : ys.length - 21 = 0 := by omega
  have hmin : min ys.length 21 = ys.length := by omega
  constructor
  · rw [hd, h0, hmin, List.drop_zero, List.map_fst_zip _ _ (by simp),
      List.range_eq_range']
  · rw [hw, h0]
    norm_num [Prod.ext_iff]

/-- Witness for C5 with 21 pushed zeros. -/
theorem series_fill_phase_check :
    (runPushes (List.replicate 21 (0 : ℚ))).pm_2_5_data.map Prod.fst =
      (List.range (List.replicate 21 (0 : ℚ)).length).map
        (Nat.cast : ℕ → ℚ) ∧
    (runPushes (List.replicate 21 (0 : ℚ))).window = (0, 20) :=
  series_fill_phase (List.replicate 21 (0 : ℚ)) (by simp)

/-- C6: pushing a 22nd value while 21 points are present evicts exactly
the single oldest point (the one with x = 0), advances the bounds to
`[1, 21]`, and appends one new point at the new upper bound 21, leaving
x-coordinates exactly `1, …, 21`. -/
theorem series_first_eviction (ys : List ℚ) (y : ℚ)
    (h : ys.length = 21) :
    (runPushes ys).pm_2_5_data.head?.map Prod.fst = some 0 ∧
    runPushes (ys ++ [y]) =
      { pm_2_5_data :=
          (runPushes ys).pm_2_5_data.drop 1 ++ [((21 : ℚ), y)],
        window := (1, 21) } ∧
    (runPushes (ys ++ [y])).pm_2_5_data.map Prod.fst =
      (List.range' 1 21).map (Nat.cast : ℕ → ℚ) := by
  obtain ⟨hw, hd⟩ := runPushes_spec ys
  have hlen21 : (runPushes ys).pm_2_5_data.length = 21 := by
    rw [hd]
    simp only [List.length_zip, List.length_map, List.length_range',
      List.length_drop]
    omega
  refine ⟨?_, ?_, ?_⟩
  · rw [← List.head?_map, hd, h]
    rw [show (21 : ℕ) - 21 = 0 from by norm_num,
      show min (21 : ℕ) 21 = 21 from by norm_num, List.drop_zero,
      List.map_fst_zip _ _ (by simp [h]), range'_21_cons, List.map_cons,
      List.head?_cons]
    norm_num
  · rw [show runPushes (ys ++ [y]) = (runPushes ys).push y from by
      simp [runPushes, List.foldl_append]]
    rw [App.push_full (by rw [hlen21]; omega)]
    simp only [hw, h]
    norm_num [Prod.ext_iff]
  · obtain ⟨hw', hd'⟩ := runPushes_spec (ys ++ [y])
    rw [hd']
    simp only [List.length_append, h, List.length_cons, List.length_nil]
    norm_num
    rw [List.map_fst_zip _ _ (by simp [h])]

/-- Witness for C6: 21 zeros, then one more value. -/
theorem series_first_eviction_check :
    (runPushes (List.replicate 21 (0 : ℚ))).pm_2_5_data.head?.map
      Prod.fst = some 0 ∧
    runPushes (List.replicate 21 (0 : ℚ) ++ [(7 : ℚ)]) =
      { pm_2_5_data :=
          (runPushes (List.replicate 21 (0 : ℚ))).pm_2_5_data.drop 1 ++
            [((21 : ℚ), 7)],
        window := (1, 21) } ∧
    (runPushes (List.replicate 21 (0 : ℚ) ++ [(7 : ℚ)])).pm_2_5_data.map
      Prod.fst = (List.range' 1 21).map (Nat.cast : ℕ → ℚ) :=
  series_first_eviction (List.replicate 21 (0 : ℚ)) 7 (by simp)

/-- C10: after every sequence of pushes the x-coordinates are exactly
the consecutive integers from `max (0, N−21)` (here the truncated
subtraction `N − 21`) up to `N−1` in insertion order; once `N ≥ 21` the
oldest point's x equals the window's lower bound and the newest point's
x equals the window's upper bound. -/
theorem series_x_coords (ys : List ℚ) :
    (runPushes ys).pm_2_5_data.map Prod.fst =
      (List.range' (ys.length - 21) (min ys.length 21)).map
        (Nat.cast : ℕ → ℚ) ∧
    (21 ≤ ys.length →
      ((runPushes ys).pm_2_5_data.map Prod.fst).head? =
        some (runPushes ys).window.1 ∧
      ((runPushes ys).pm_2_5_data.map Prod.fst).getLast? =
        some (runPushes ys).window.2) := by
  obtain ⟨hw, hd⟩ := runPushes_spec ys
  have hfst : (runPushes ys).pm_2_5_data.map Prod.fst =
      (List.range' (ys.length - 21) (min ys.length 21)).map
        (Nat.cast : ℕ → ℚ) := by
    rw [hd]
    exact List.map_fst_zip _ _ (by simp; omega)
  refine ⟨hfst, fun hge => ⟨?_, ?_⟩⟩
  · rw [hfst, hw, show min ys.length 21 = 21 from by omega,
      range'_21_cons, List.map_cons, List.head?_cons]
  · rw [hfst, hw, show min ys.length 21 = 21 from by omega,
      range'_21_concat, List.map_append, List.map_cons, List.map_nil,
      List.getLast?_concat]
    norm_cast

/-- Witness for C10 with 21 pushed zeros. -/
theorem series_x_coords_check :
    ((runPushes (List.replicate 21 (0 : ℚ))).pm_2_5_data.map
        Prod.fst).head? =
      some (runPushes (List.replicate 21 (0 : ℚ))).window.1 ∧
    ((runPushes (List.replicate 21 (0 : ℚ))).pm_2_5_data.map
        Prod.fst).getLast? =
      some (runPushes (List.replicate 21 (0 : ℚ))).window.2 :=
  (series_x_coords (List.replicate 21 (0 : ℚ))).2 (by simp)

/-- C2: after `N ≥ 21` successful ticks the buffer holds exactly 21
points, the window bounds equal `[N−21, N−1]` (width constantly 20, the
buffer never exceeding its capacity of 21), and the stored y-values are
the calculator's outputs for the corresponding pushed concentrations in
order. -/
theorem series_steady_state (cs : List ℚ) (app : App)
    (h : runTicks cs = some app) (hN : 21 ≤ cs.length) :
    app.pm_2_5_data.length = 21 ∧
    app.window = (((cs.length - 21 : ℕ) : ℚ), ((cs.length - 1 : ℕ) : ℚ)) ∧
    app.pm_2_5_data.map (fun p => some p.2) =
      (cs.drop (cs.length - 21)).map aqi_from_pm2_5 := by
  obtain ⟨ys, hys, rfl⟩ := runTicks_eq_runPushes cs app h
  have hlen : ys.length = cs.length := by
    have := congrArg List.length hys
    simpa using this
  obtain ⟨hw, hd⟩ := runPushes_spec ys
  refine ⟨?_, ?_, ?_⟩
  · rw [hd]
    simp only [List.length_zip, List.length_map, List.length_range',
      List.length_drop]
    omega
  · rw [hw, hlen, Prod.ext_iff]
    refine ⟨rfl, ?_⟩
    rw [show cs.length - 1 = (cs.length - 21) + 20 from by omega]
    push_cast
    ring
  · rw [hd, show (fun p : ℚ × ℚ => some p.2) = (some ∘ Prod.snd)
      from rfl, ← List.map_map, List.map_snd_zip _ _ (by simp; omega),
      List.map_drop, hys, ← List.map_drop, hlen]

lemma foldlM_update_isSome (cs : List ℚ)
    (h : ∀ c ∈ cs, (aqi_from_pm2_5 c).isSome) :
    ∀ a : App, (cs.foldlM App.update a).isSome := by
  induction cs with
  | nil => intro a; simp
  | cons c cs ih =>
    intro a
    rw [List.foldlM_cons]
    obtain ⟨v, hv⟩ := Option.isSome_iff_exists.mp
      (h c (List.mem_cons_self c cs))
    rw [App.update, hv, Option.map_some']
    simp only [Option.bind_eq_bind, Option.some_bind]
    exact ih (fun d hd => h d (List.mem_cons_of_mem c hd)) (a.push v)

/-- Witness for C2 with 21 ticks at concentration 0. -/
theorem series_steady_state_check :
    ∃ app, runTicks (List.replicate 21 (0 : ℚ)) = some app ∧
      app.pm_2_5_data.length = 21 ∧
      app.window = ((((List.replicate 21 (0 : ℚ)).length - 21 : ℕ) : ℚ),
        (((List.replicate 21 (0 : ℚ)).length - 1 : ℕ) : ℚ)) ∧
      app.pm_2_5_data.map (fun p => some p.2) =
        ((List.replicate 21 (0 : ℚ)).drop
          ((List.replicate 21 (0 : ℚ)).length - 21)).map aqi_from_pm2_5 := by
  have hs : ∀ c ∈ List.replicate 21 (0 : ℚ), (aqi_from_pm2_5 c).isSome := by
    intro c hc
    rw [List.eq_of_mem_replicate hc]
    norm_num [aqi_from_pm2_5, find_lookup_values, find_in_table,
      PM2_5_LOOKUP_TABLE]
  obtain ⟨app, happ⟩ := Option.isSome_iff_exists.mp
    (foldlM_update_isSome _ hs App.new)
  exact ⟨app, happ,
    series_steady_state (List.replicate 21 (0 : ℚ)) app happ (by simp)⟩

/-- C8: feeding the concentrations `[0.0, 12.0, 35.5, 55.5]` one per
tick through the compute-then-push pipeline from a fresh series yields
the derived indices `[0, 50, 101, 151]` as y-values at x = 0, 1, 2, 3,
with window bounds `[0, 20]`. -/
theorem pipeline_scenario :
    runTicks [0.0, 12.0, 35.5, 55.5] =
      some { pm_2_5_data := [(0, 0), (1, 50), (2, 101), (3, 151)],
             window := (0, 20) } := by
  norm_num [runTicks, aqi_from_pm2_5, find_lookup_values, find_in_table,
    PM2_5_LOOKUP_TABLE, aqi, App.update, App.push, App.new, List.foldlM]
